import Mathlib

/-!
# abci_proxy: the forwarding proxy and the test node orchestrator

A shallow embedding of `proxy.go` (the `ProxyApplication`) and of
`bc_node_test.go` (the `BCNode` harness), followed by the properties of the
repository's specification that are settled on it.

Conventions of the embedding
* A Go `[]byte` and a Go `string` are both sequences of bytes (`Bytes`,
  `GoString`); `string(b)` and `[]byte(s)` are the identity.
* A Go `error` is represented by its message, `nil` by `none`.
* Calls that leave the program (the downstream ABCI client, the logger, the
  filesystem, subprocesses, the ABCI servers) are recorded, in order, in an
  explicit trace, and their outcomes are read from an explicit environment.
* A Go runtime panic is the value `none` of an `Option` result.
* A Go `int` is 64 bits wide: an integer of the range -2^63 .. 2^63 - 1, and a
  sum of two of them wraps around (`addInt`).
-/

namespace AbciProxy

/-! ## Go values -/

/-- One byte. -/
abbrev Byte := UInt8

/-- A Go byte slice; the nil slice and the empty slice are both `[]`. -/
abbrev Bytes := List Byte

/-- A Go string: an immutable sequence of bytes. -/
abbrev GoString := List Byte

/-- The bytes of a string literal of the source. Every string literal of the two
source files is ASCII, where the byte of a character is its code point. -/
def ascii (s : String) : GoString :=
  s.data.map (fun c => UInt8.ofNat c.toNat)

/-- A Go `error` value, identified with the text `err.Error()` returns. -/
abbrev GoError := GoString

/-- Go slice expression `b[k:]`: a runtime panic (`none`) when `k > len(b)`. -/
def sliceFrom (b : Bytes) (k : Nat) : Option Bytes :=
  if k ≤ b.length then some (b.drop k) else none

/-- Go slice expression `b[0:k]`, used only under the guard `len(b) >= k`. -/
def sliceTo (b : Bytes) (k : Nat) : Bytes :=
  b.take k

/-- Go standard library `bytes.HasPrefix`:
`len(s) >= len(prefix) && Equal(s[0:len(prefix)], prefix)`. -/
def bytesHasPrefix (s pre : Bytes) : Bool :=
  decide (s.length ≥ pre.length) && decide (sliceTo s pre.length = pre)

/-- The decimal digits of a natural number, as bytes. -/
def decimal (n : Nat) : GoString :=
  (Nat.toDigits 10 n).map (fun c => UInt8.ofNat c.toNat)

/-- Go `fmt` verb `%d` on a signed integer. -/
def fmtD : Int → GoString
  | Int.ofNat n => decimal n
  | Int.negSucc n => ascii "-" ++ decimal (n + 1)

/-- Go `fmt` verb `%02d` on a signed integer: at least two columns, padded with
zeros between the sign and the digits. -/
def fmtD02 : Int → GoString
  | Int.ofNat n => List.replicate (2 - (decimal n).length) 48 ++ decimal n
  | Int.negSucc n => ascii "-" ++ List.replicate (1 - (decimal (n + 1)).length) 48 ++ decimal (n + 1)

/-! ## The ABCI library types used by the proxy -/

/-- The message types of the ABCI library that the proxy hands through without
looking inside them. -/
structure Messages where
  /-- Go type `types.ResponseInfo`. -/
  ResponseInfo : Type
  /-- Go type `types.RequestQuery`. -/
  RequestQuery : Type
  /-- Go type `types.ResponseQuery`. -/
  ResponseQuery : Type
  /-- Go type `[]*types.Validator`. -/
  Validators : Type
  /-- Go type `*types.Header`. -/
  Header : Type
  /-- Go type `types.ResponseEndBlock`. -/
  ResponseEndBlock : Type

/-- ABCI `types.CodeType`. -/
abbrev CodeType := Nat

/-- ABCI `types.CodeType_OK`. -/
def CodeType_OK : CodeType := 0

/-- ABCI `types.Result`. -/
structure Result where
  Code : CodeType
  Data : Bytes
  Log : GoString
deriving DecidableEq, Repr

/-- ABCI `types.NewResultOK(data, log)`:
`Result{Code: CodeType_OK, Data: data, Log: log}`. -/
def NewResultOK (data : Bytes) (log : GoString) : Result :=
  { Code := CodeType_OK, Data := data, Log := log }

/-- The synchronous operations of `abcicli.Client` that `proxy.go` calls. The
delegate is an arbitrary state machine over its own state `σ`: each operation
maps the state before the call to its return values and the state after. -/
structure Client (M : Messages) (σ : Type) where
  InfoSync : σ → (M.ResponseInfo × Option GoError) × σ
  SetOptionSync : GoString → GoString → σ → Result × σ
  DeliverTxSync : Bytes → σ → Result × σ
  CheckTxSync : Bytes → σ → Result × σ
  CommitSync : σ → Result × σ
  QuerySync : M.RequestQuery → σ → (M.ResponseQuery × Option GoError) × σ
  InitChainSync : M.Validators → σ → Option GoError × σ
  BeginBlockSync : Bytes → M.Header → σ → Option GoError × σ
  EndBlockSync : Nat → σ → (M.ResponseEndBlock × Option GoError) × σ

/-- One invocation of the downstream delegate, with its arguments. -/
inductive ClientCall (M : Messages) where
  | InfoSync
  | SetOptionSync (key value : GoString)
  | DeliverTxSync (tx : Bytes)
  | CheckTxSync (tx : Bytes)
  | CommitSync
  | QuerySync (reqQuery : M.RequestQuery)
  | InitChainSync (validators : M.Validators)
  | BeginBlockSync (hash : Bytes) (header : M.Header)
  | EndBlockSync (height : Nat)

/-- A value handed to the logger. -/
inductive LogValue (M : Messages) where
  | str (s : GoString)
  | bytes (b : Bytes)
  | query (q : M.RequestQuery)
  | validators (v : M.Validators)
  | header (h : M.Header)
  | height (h : Nat)

/-- One record written to the logger: the operation and its key/value pairs. -/
structure LogRecord (M : Messages) where
  op : String
  keyvals : List (String × LogValue M)

/-- Everything outside the proxy that a call can touch: the state of the
downstream delegate, the invocations of the delegate so far (oldest first) and
the records written to the logger so far (oldest first). -/
structure World (M : Messages) (σ : Type) where
  next : σ
  calls : List (ClientCall M)
  logs : List (LogRecord M)

/-- Modelled from the spec: LogCall, the logging helper of this package whose
source file is not part of the two files embedded here. "Every call emits a
structured log record naming the operation and its notable arguments before
taking any action"; it receives the logger and the arguments only, so it
touches neither the delegate nor the record of its invocations. -/
def LogCall {M : Messages} {σ : Type} (op : String) (keyvals : List (String × LogValue M))
    (w : World M σ) : World M σ :=
  { w with logs := w.logs ++ [{ op := op, keyvals := keyvals }] }

/-- One synchronous call on the delegate `app.next`: the call is recorded and
the delegate moves to its next state. -/
def World.invoke {M : Messages} {σ α : Type} (w : World M σ) (c : ClientCall M)
    (f : σ → α × σ) : α × World M σ :=
  ((f w.next).1, { w with next := (f w.next).2, calls := w.calls ++ [c] })

/-! ## proxy.go -/

/-- Go struct `ProxyApplication`; the logger lives in the `World`. -/
structure ProxyApplication (M : Messages) (σ : Type) where
  next : Client M σ
  pre : Bytes

/-- Go `NewProxyApp(next, prefix)`. -/
def NewProxyApp {M : Messages} {σ : Type} (next : Client M σ) (pre : Bytes) :
    ProxyApplication M σ :=
  { next := next, pre := pre }

namespace ProxyApplication

variable {M : Messages} {σ : Type}

/-- Go `makeEcho`: `fmt.Sprintf("Echo: %s", string(tx[len(app.prefix):]))`. -/
def makeEcho (app : ProxyApplication M σ) (tx : Bytes) : Option GoString :=
  (sliceFrom tx app.pre.length).map (fun rest => ascii "Echo: " ++ rest)

/-- Go `Info`. -/
def Info (app : ProxyApplication M σ) (w : World M σ) : M.ResponseInfo × World M σ :=
  let w1 := LogCall "Info" [] w
  let r := w1.invoke ClientCall.InfoSync app.next.InfoSync
  (r.1.1, r.2)

/-- Go `SetOption`. -/
def SetOption (app : ProxyApplication M σ) (key value : GoString) (w : World M σ) :
    GoString × World M σ :=
  let w1 := LogCall "SetOption" [("key", LogValue.str key), ("value", LogValue.str value)] w
  let r := w1.invoke (ClientCall.SetOptionSync key value) (app.next.SetOptionSync key value)
  (r.1.Log, r.2)

/-- Go `DeliverTx`. -/
def DeliverTx (app : ProxyApplication M σ) (tx : Bytes) (w : World M σ) :
    Option (Result × World M σ) :=
  let w1 := LogCall "DeliverTx" [("tx", LogValue.bytes tx)] w
  if bytesHasPrefix tx app.pre then
    (app.makeEcho tx).map (fun log => (NewResultOK [] log, w1))
  else
    some (w1.invoke (ClientCall.DeliverTxSync tx) (app.next.DeliverTxSync tx))

/-- Go `CheckTx`. -/
def CheckTx (app : ProxyApplication M σ) (tx : Bytes) (w : World M σ) :
    Option (Result × World M σ) :=
  let w1 := LogCall "CheckTx" [("tx", LogValue.bytes tx)] w
  if bytesHasPrefix tx app.pre then
    (app.makeEcho tx).map (fun log => (NewResultOK [] log, w1))
  else
    some (w1.invoke (ClientCall.CheckTxSync tx) (app.next.CheckTxSync tx))

/-- Go `Commit`. -/
def Commit (app : ProxyApplication M σ) (w : World M σ) : Result × World M σ :=
  let w1 := LogCall "Commit" [] w
  w1.invoke ClientCall.CommitSync app.next.CommitSync

/-- Go `Query`. -/
def Query (app : ProxyApplication M σ) (reqQuery : M.RequestQuery) (w : World M σ) :
    M.ResponseQuery × World M σ :=
  let w1 := LogCall "Query" [("query", LogValue.query reqQuery)] w
  let r := w1.invoke (ClientCall.QuerySync reqQuery) (app.next.QuerySync reqQuery)
  (r.1.1, r.2)

/-- Go `InitChain`. -/
def InitChain (app : ProxyApplication M σ) (validators : M.Validators) (w : World M σ) :
    World M σ :=
  let w1 := LogCall "InitChain" [("validators", LogValue.validators validators)] w
  (w1.invoke (ClientCall.InitChainSync validators) (app.next.InitChainSync validators)).2

/-- Go `BeginBlock`. -/
def BeginBlock (app : ProxyApplication M σ) (hash : Bytes) (header : M.Header)
    (w : World M σ) : World M σ :=
  let w1 := LogCall "BeginBlock" [("hash", LogValue.bytes hash), ("header", LogValue.header header)] w
  (w1.invoke (ClientCall.BeginBlockSync hash header) (app.next.BeginBlockSync hash header)).2

/-- Go `EndBlock`. -/
def EndBlock (app : ProxyApplication M σ) (height : Nat) (w : World M σ) :
    M.ResponseEndBlock × World M σ :=
  let w1 := LogCall "EndBlock" [("height", LogValue.height height)] w
  let r := w1.invoke (ClientCall.EndBlockSync height) (app.next.EndBlockSync height)
  (r.1.1, r.2)

end ProxyApplication

/-! ## Go standard library: path/filepath on Unix -/

/-- The elements of a path: the pieces between its separators `/` (byte 47),
empty pieces included. -/
def pathElements (path : GoString) : List GoString :=
  path.splitOn 47

/-- One round of the loop of `filepath.Clean` on the next path element, the
elements written so far being kept last-written first: an empty element and `.`
are dropped; `..` removes the last written element if there is one that is not
itself `..`, is kept on an unrooted path and dropped on a rooted one; any other
element is written. -/
def cleanStep (rooted : Bool) (written : List GoString) (e : GoString) : List GoString :=
  if e = [] ∨ e = ascii "." then written
  else if e = ascii ".." then
    match written with
    | top :: below =>
      if top ≠ ascii ".." then below
      else if rooted then written else e :: written
    | [] => if rooted then written else e :: written
  else e :: written

/-- Go standard library `filepath.Clean` (Unix): the shortest equivalent path;
`.` for the empty result. -/
def filepathClean (path : GoString) : GoString :=
  if path = [] then ascii "."
  else
    let rooted := path.head? == some 47
    let written := (pathElements path).foldl (cleanStep rooted) []
    let out := (if rooted then [47] else []) ++ List.intercalate [47] written.reverse
    if out = [] then ascii "." else out

/-- Go standard library `filepath.Join` (Unix): the elements from the first
non-empty one on, joined with `/` and cleaned; the empty string if all are
empty. -/
def filepathJoin : List GoString → GoString
  | [] => []
  | e :: es => if e ≠ [] then filepathClean (List.intercalate [47] (e :: es)) else filepathJoin es

/-! ## bc_node_test.go -/

/-- Go `int` on a 64-bit platform: the two's complement value that an integer
result is stored as, between -2^63 and 2^63 - 1. -/
def wrapInt (x : Int) : Int :=
  (x + 9223372036854775808) % 18446744073709551616 - 9223372036854775808

/-- Go `a + b` on `int`: the sum, wrapped around to 64 bits. -/
def addInt (a b : Int) : Int :=
  wrapInt (a + b)

/-- Go `type BCNodeID int`; the conversion `int(n.ID)` is the identity. -/
abbrev BCNodeID := Int

/-- Go field `tmNodeCmd *exec.Cmd` of a node: the nil pointer; a command that
`exec.Command` built, whose field `Process` is nil; a command whose `Start()`
succeeded, whose `Process` is the spawned subprocess. -/
inductive CmdHandle where
  | nil
  | created
  | started
deriving DecidableEq, Repr

/-- Go struct `BCNode`. The identity and the working directory are values. Of
the handles `tmNodeCmd`, `proxy`, `proxyService`, `appClient` and `app` the
structure keeps whether they are assigned (`false` is the nil handle), which is
what decides whether a call through them panics; what such a call does is
recorded in the trace of `Action`s and what it answers is read from the `Env`.
`NewBCNode` assigns none of them. The three output buffers and the test
application are not represented: the contents of a buffer are read from the
`Env`. -/
structure BCNode where
  ID : BCNodeID
  wDir : GoString
  tmNodeCmd : CmdHandle := CmdHandle.nil
  proxy : Bool := false
  proxyService : Bool := false
  appClient : Bool := false
  app : Bool := false
deriving DecidableEq, Repr

def MaxBCNodeID : BCNodeID := 99

def ProxyAppPortStart : Int := 50000
def RPCPortStart : Int := 50100
def P2PPortStart : Int := 50200
def AppPortStart : Int := 50300
def RPCProxyStart : Int := 50400

/-- The three in-process services a node holds: fields `app`, `appClient` and
`proxyService`. -/
inductive Service where
  | app
  | appClient
  | proxyService
deriving DecidableEq, Repr

/-- A call of the harness that leaves the program. -/
inductive Action where
  /-- Go call `os.MkdirAll(path, perm)`. -/
  | MkdirAll (path : GoString) (perm : Nat)
  /-- Go call `exec.Command(argv...).CombinedOutput()`. -/
  | CombinedOutput (argv : List GoString)
  /-- Go call `server.NewServer(addr, transport, ...)`, assigned to field `s`. -/
  | NewServer (s : Service) (addr transport : GoString)
  /-- Go call `SetLogger` on the service. -/
  | SetLogger (s : Service)
  /-- Go call `Start()` on the service. -/
  | ServiceStart (s : Service)
  /-- Go call `time.Sleep` of that many milliseconds. -/
  | Sleep (ms : Nat)
  /-- Go call `abcicli.NewSocketClient(addr, mustConnect)`. -/
  | NewSocketClient (addr : GoString) (mustConnect : Bool)
  /-- Go call `NewProxyApp(n.appClient)`. -/
  | NewProxyApp
  /-- Go call `exec.Command(argv...).Start()`: the subprocess is spawned. -/
  | CmdStart (argv : List GoString)
  /-- Go call `n.tmNodeCmd.Process.Signal(syscall.SIGINT)`. -/
  | SignalInterrupt
  /-- Go call `n.tmNodeCmd.Wait()`. -/
  | Wait
  /-- Go call `Stop()` on the service. -/
  | ServiceStop (s : Service)
deriving DecidableEq, Repr

/-- What the outside answers to each call of the harness. -/
structure Env where
  /-- The error of `os.MkdirAll(path, perm)`. -/
  MkdirAll : GoString → Nat → Option GoError
  /-- The output and error of `exec.Command(argv...).CombinedOutput()`. -/
  CombinedOutput : List GoString → Bytes × Option GoError
  /-- The error of `server.NewServer(addr, transport, ...)`. -/
  NewServer : Service → GoString → GoString → Option GoError
  /-- The error of `Start()` on a service. -/
  ServiceStart : Service → Option GoError
  /-- The error of `exec.Command(argv...).Start()`. -/
  CmdStart : List GoString → Option GoError
  /-- The error of `Process.Signal(syscall.SIGINT)`. -/
  SignalInterrupt : Option GoError
  /-- The error of `Wait()`. -/
  Wait : Option GoError
  /-- The contents of the buffer `tmNodeOutput` when `Stop` reads it. -/
  tmNodeOutput : GoString
  /-- The boolean `Stop()` on a service reports. -/
  ServiceStop : Service → Bool

namespace BCNode

/-- Go `ProxyAppPort`. -/
def ProxyAppPort (n : BCNode) : Int := addInt ProxyAppPortStart n.ID

/-- Go `RPCPort`. -/
def RPCPort (n : BCNode) : Int := addInt RPCPortStart n.ID

/-- Go `P2PPort`. -/
def P2PPort (n : BCNode) : Int := addInt P2PPortStart n.ID

/-- Go `AppPort`. -/
def AppPort (n : BCNode) : Int := addInt AppPortStart n.ID

/-- Go `RPCProxyPort`. -/
def RPCProxyPort (n : BCNode) : Int := addInt RPCProxyStart n.ID

/-- Go `WorkingDir`. -/
def WorkingDir (n : BCNode) : GoString := n.wDir

/-- The five ports of a node, in the order proxy, RPC, peer-to-peer,
application, RPC proxy. -/
def ports (n : BCNode) : List Int :=
  [n.ProxyAppPort, n.RPCPort, n.P2PPort, n.AppPort, n.RPCProxyPort]

/-- Go `FormatPeerListOptions`: the body of the `for` loop, on the accumulator
`res` and the next peer `p`. -/
def formatPeerStep (n : BCNode) (res : GoString) (p : BCNode) : GoString :=
  if p.ID = n.ID then res
  else
    (if res.length > 0 then res ++ ascii "," else res) ++ (ascii "127.0.0.1:" ++ fmtD p.P2PPort)

/-- Go `FormatPeerListOptions`. -/
def FormatPeerListOptions (n : BCNode) (peers : List BCNode) : GoString :=
  peers.foldl (formatPeerStep n) []

end BCNode

/-- The arguments of the initialization subprocess of `NewBCNode`. -/
def initArgv (wDir : GoString) : List GoString :=
  [ascii "tendermint", ascii "init", ascii "--home", wDir]

/-- Go `NewBCNode`: the returned pair `(*BCNode, error)`, a nil pointer and a
nil error being `none`, and the calls made, in order. -/
def NewBCNode (env : Env) (ID : BCNodeID) (rootDir : GoString) :
    (Option BCNode × Option GoError) × List Action :=
  if ID > MaxBCNodeID then
    ((none, some (ascii "Maximum  BCNodeID for test is " ++ fmtD MaxBCNodeID ++ ascii ", got "
      ++ fmtD ID)), [])
  else
    let res : BCNode := { ID := ID, wDir := filepathJoin [rootDir, ascii "BCNode" ++ fmtD02 ID] }
    match env.MkdirAll res.wDir 0o755 with
    | some err => ((none, some err), [Action.MkdirAll res.wDir 0o755])
    | none =>
      match env.CombinedOutput (initArgv res.wDir) with
      | (output, some err) =>
        ((none, some (ascii "Could not initialize tendermint: " ++ err
          ++ ascii "\n---output---\n" ++ output)),
         [Action.MkdirAll res.wDir 0o755, Action.CombinedOutput (initArgv res.wDir)])
      | (_, none) =>
        ((some res, none),
         [Action.MkdirAll res.wDir 0o755, Action.CombinedOutput (initArgv res.wDir)])

namespace BCNode

/-- The address `tcp://127.0.0.1:<port>`. -/
def tcpAddr (port : Int) : GoString := ascii "tcp://127.0.0.1:" ++ fmtD port

/-- The arguments of the consensus subprocess of `Start`. -/
def nodeArgv (n : BCNode) (peers : List BCNode) : List GoString :=
  [ascii "tendermint", ascii "node",
   ascii "--home", n.wDir,
   ascii "--proxy_app", tcpAddr n.ProxyAppPort,
   ascii "--p2p.laddr", tcpAddr n.P2PPort,
   ascii "--rpc.laddr", tcpAddr n.RPCPort,
   ascii "--p2p.seeds=" ++ n.FormatPeerListOptions peers]

/-- Go `Start`, run on the node `n`: the returned error, the calls made, in
order, and the node as the run leaves it. A handle is assigned where the source
assigns it; with the error of `server.NewServer` comes the nil service. -/
def StartRun (env : Env) (n : BCNode) (peers : List BCNode) :
    (Option GoError × List Action) × BCNode :=
  let t1 := [Action.NewServer Service.app (tcpAddr n.AppPort) (ascii "socket")]
  match env.NewServer Service.app (tcpAddr n.AppPort) (ascii "socket") with
  | some err => ((some err, t1), { n with app := false })
  | none =>
    let n1 := { n with app := true }
    let t2 := t1 ++ [Action.SetLogger Service.app, Action.ServiceStart Service.app]
    match env.ServiceStart Service.app with
    | some err => ((some err, t2), n1)
    | none =>
      let n2 := { n1 with appClient := true }
      let t3 := t2 ++ [Action.Sleep 20, Action.NewSocketClient (tcpAddr n.AppPort) true,
        Action.ServiceStart Service.appClient]
      match env.ServiceStart Service.appClient with
      | some err => ((some err, t3), n2)
      | none =>
        let n3 := { n2 with proxy := true }
        let t4 := t3 ++ [Action.NewProxyApp,
          Action.NewServer Service.proxyService (tcpAddr n.ProxyAppPort) (ascii "socket")]
        match env.NewServer Service.proxyService (tcpAddr n.ProxyAppPort) (ascii "socket") with
        | some err => ((some err, t4), { n3 with proxyService := false })
        | none =>
          let n4 := { n3 with proxyService := true }
          let t5 := t4 ++ [Action.SetLogger Service.proxyService,
            Action.ServiceStart Service.proxyService]
          match env.ServiceStart Service.proxyService with
          | some err => ((some err, t5), n4)
          | none =>
            let n5 := { n4 with tmNodeCmd := CmdHandle.created }
            let t6 := t5 ++ [Action.CmdStart (n.nodeArgv peers)]
            match env.CmdStart (n.nodeArgv peers) with
            | some err => ((some err, t6), n5)
            | none => ((none, t6), { n5 with tmNodeCmd := CmdHandle.started })

/-- Go `Start`: the returned error and the calls made, in order. -/
def Start (env : Env) (n : BCNode) (peers : List BCNode) : Option GoError × List Action :=
  (StartRun env n peers).1

/-- The node as a run of Go `Start` leaves it. -/
def afterStart (env : Env) (n : BCNode) (peers : List BCNode) : BCNode :=
  (StartRun env n peers).2

/-- The second half of Go `Stop`, from the comment `//stop proxy` on; `t2` holds
the calls made before it. A call of `Stop()` through a nil service panics. -/
def stopServices (env : Env) (n : BCNode) (t2 : List Action) :
    Option (Option GoError) × List Action :=
  if n.proxyService = false then (none, t2)
  else
    let t3 := t2 ++ [Action.ServiceStop Service.proxyService]
    if env.ServiceStop Service.proxyService = false then
      (some (some (ascii "Could not stop proxy service " ++ fmtD n.ID)), t3)
    else if n.appClient = false then (none, t3)
    else
      let t4 := t3 ++ [Action.ServiceStop Service.appClient]
      if env.ServiceStop Service.appClient = false then
        (some (some (ascii "Could not close target app connection " ++ fmtD n.ID)), t4)
      else if n.app = false then (none, t4)
      else
        let t5 := t4 ++ [Action.ServiceStop Service.app]
        if env.ServiceStop Service.app = false then
          (some (some (ascii "Could not stop target app " ++ fmtD n.ID)), t5)
        else (some none, t5)

/-- Go `Stop`: what the call comes to and the calls made, in order. The first
component is `none` when the call panics, `some none` when it returns the nil
error and `some (some err)` when it returns the error `err`. The first
statement goes through `n.tmNodeCmd.Process`: it panics, before any call is
made, when `tmNodeCmd` is nil and when its `Process` is nil, that is on every
node whose subprocess `Start` has not spawned. -/
def Stop (env : Env) (n : BCNode) : Option (Option GoError) × List Action :=
  match n.tmNodeCmd with
  | CmdHandle.nil => (none, [])
  | CmdHandle.created => (none, [])
  | CmdHandle.started =>
    let t1 := [Action.SignalInterrupt]
    match env.SignalInterrupt with
    | some err =>
      (some (some (ascii "Could not interrupt tendermint node [" ++ fmtD n.ID ++ ascii "]: " ++ err
        ++ ascii "\n---output---\n" ++ env.tmNodeOutput)), t1)
    | none =>
      let t2 := t1 ++ [Action.Wait]
      match env.Wait with
      | some err =>
        if err ≠ ascii "signal: interrupt" ∧ err ≠ ascii "exit status 1" then
          (some (some (ascii "Could not wait on interupt of tendermint node [" ++ fmtD n.ID
            ++ ascii "] : " ++ err ++ ascii "\n---output---\n" ++ env.tmNodeOutput)), t2)
        else stopServices env n t2
      | none => stopServices env n t2

end BCNode

/-! ## Concrete inputs for the examples -/

/-- A choice of message types for examples: every message is a number. -/
abbrev natMessages : Messages :=
  { ResponseInfo := Nat, RequestQuery := Nat, ResponseQuery := Nat, Validators := Nat,
    Header := Nat, ResponseEndBlock := Nat }

/-- A stub delegate for examples. Its state counts the calls it has served;
`CheckTxSync` answers with code 1, `DeliverTxSync` with code 2 and the payload
as data, and the log of both is the count. -/
def stubClient : Client natMessages Nat :=
  { InfoSync := fun s => ((s, none), s + 1)
    SetOptionSync := fun k _ s => (⟨0, [], k⟩, s + 1)
    DeliverTxSync := fun tx s => (⟨2, tx, decimal s⟩, s + 1)
    CheckTxSync := fun _ s => (⟨1, [], decimal s⟩, s + 1)
    CommitSync := fun s => (⟨0, [7], decimal s⟩, s + 1)
    QuerySync := fun q s => ((q + s, some (ascii "query failed")), s + 1)
    InitChainSync := fun _ s => (none, s + 1)
    BeginBlockSync := fun _ _ s => (none, s + 1)
    EndBlockSync := fun h s => ((h + s, none), s + 1) }

/-- A world for examples: the stub has served three calls, nothing recorded. -/
def stubWorld : World natMessages Nat :=
  { next := 3, calls := [], logs := [] }


/-- An environment for examples in which every call succeeds and the
subprocesses print nothing. -/
def allSucceed : Env :=
  { MkdirAll := fun _ _ => none
    CombinedOutput := fun _ => ([], none)
    NewServer := fun _ _ _ => none
    ServiceStart := fun _ => none
    CmdStart := fun _ => none
    SignalInterrupt := none
    Wait := none
    tmNodeOutput := []
    ServiceStop := fun _ => true }

/-- The calls of a complete run of `BCNode.Start`, in program order. -/
def startActions (n : BCNode) (peers : List BCNode) : List Action :=
  [Action.NewServer Service.app (BCNode.tcpAddr n.AppPort) (ascii "socket"),
   Action.SetLogger Service.app,
   Action.ServiceStart Service.app,
   Action.Sleep 20,
   Action.NewSocketClient (BCNode.tcpAddr n.AppPort) true,
   Action.ServiceStart Service.appClient,
   Action.NewProxyApp,
   Action.NewServer Service.proxyService (BCNode.tcpAddr n.ProxyAppPort) (ascii "socket"),
   Action.SetLogger Service.proxyService,
   Action.ServiceStart Service.proxyService,
   Action.CmdStart (n.nodeArgv peers)]

/-- The calls of a complete run of `BCNode.Stop`, in program order. -/
def stopActions : List Action :=
  [Action.SignalInterrupt,
   Action.Wait,
   Action.ServiceStop Service.proxyService,
   Action.ServiceStop Service.appClient,
   Action.ServiceStop Service.app]

/-! ## The proxy: interception and relay -/

variable {M : Messages} {σ : Type}

theorem bytesHasPrefix_iff (s pre : Bytes) : bytesHasPrefix s pre = true ↔ pre <+: s := by
  unfold bytesHasPrefix sliceTo
  rw [Bool.and_eq_true, decide_eq_true_iff, decide_eq_true_iff]
  constructor
  · rintro ⟨_, h⟩
    rw [← h]
    exact List.take_prefix _ _
  · intro h
    exact ⟨h.length_le, (List.prefix_iff_eq_take.mp h).symm⟩

theorem makeEcho_of_starts (app : ProxyApplication M σ) (tx : Bytes) (h : app.pre <+: tx) :
    app.makeEcho tx = some (ascii "Echo: " ++ tx.drop app.pre.length) := by
  unfold ProxyApplication.makeEcho sliceFrom
  rw [if_pos h.length_le]
  rfl

/-- Neither `CheckTx` nor `DeliverTx` ever panics: the slice in `makeEcho` is
taken only under the guard `bytes.HasPrefix`. -/
theorem tx_never_panics (app : ProxyApplication M σ) (tx : Bytes) (w : World M σ) :
    (app.CheckTx tx w).isSome = true ∧ (app.DeliverTx tx w).isSome = true := by
  unfold ProxyApplication.CheckTx ProxyApplication.DeliverTx
  by_cases h : bytesHasPrefix tx app.pre = true
  · have hp := (bytesHasPrefix_iff tx app.pre).mp h
    simp [h, makeEcho_of_starts app tx hp]
  · simp [h]

/-- C1: when the payload `P` starts with the configured prefix, `CheckTx P` and
`DeliverTx P` both return the same result: code OK, empty data, and the log
`"Echo: "` followed by `P` without its first `len(prefix)` bytes; afterwards the
record of delegate invocations and the delegate's state are what they were
before the call, so the delegate was not invoked. -/
theorem C1_prefixed_tx_echoed_locally (app : ProxyApplication M σ) (P : Bytes) (w : World M σ)
    (h : app.pre <+: P) :
    ∃ w1 w2 : World M σ,
      app.CheckTx P w
        = some ({ Code := CodeType_OK, Data := [],
                  Log := ascii "Echo: " ++ P.drop app.pre.length }, w1)
      ∧ app.DeliverTx P w
        = some ({ Code := CodeType_OK, Data := [],
                  Log := ascii "Echo: " ++ P.drop app.pre.length }, w2)
      ∧ w1.calls = w.calls ∧ w1.next = w.next
      ∧ w2.calls = w.calls ∧ w2.next = w.next := by
  have hb : bytesHasPrefix P app.pre = true := (bytesHasPrefix_iff P app.pre).mpr h
  refine ⟨LogCall "CheckTx" [("tx", LogValue.bytes P)] w,
    LogCall "DeliverTx" [("tx", LogValue.bytes P)] w, ?_, ?_, rfl, rfl, rfl, rfl⟩
  · unfold ProxyApplication.CheckTx
    simp only [hb, if_true, makeEcho_of_starts app P h, Option.map_some', NewResultOK]
  · unfold ProxyApplication.DeliverTx
    simp only [hb, if_true, makeEcho_of_starts app P h, Option.map_some', NewResultOK]

/-- C1 at the prefix `"ab"` and the payload `"abc"` on the stub delegate. -/
theorem C1_prefixed_tx_echoed_locally_witness :
    (NewProxyApp stubClient (ascii "ab")).pre <+: ascii "abc"
    ∧ ∃ w1 w2 : World natMessages Nat,
      (NewProxyApp stubClient (ascii "ab")).CheckTx (ascii "abc") stubWorld
        = some ({ Code := CodeType_OK, Data := [],
                  Log := ascii "Echo: "
                    ++ (ascii "abc").drop (NewProxyApp stubClient (ascii "ab")).pre.length }, w1)
      ∧ (NewProxyApp stubClient (ascii "ab")).DeliverTx (ascii "abc") stubWorld
        = some ({ Code := CodeType_OK, Data := [],
                  Log := ascii "Echo: "
                    ++ (ascii "abc").drop (NewProxyApp stubClient (ascii "ab")).pre.length }, w2)
      ∧ w1.calls = stubWorld.calls ∧ w1.next = stubWorld.next
      ∧ w2.calls = stubWorld.calls ∧ w2.next = stubWorld.next :=
  ⟨by decide, C1_prefixed_tx_echoed_locally (NewProxyApp stubClient (ascii "ab")) (ascii "abc")
    stubWorld (by decide)⟩

/-- C2: when the payload `P` does not start with the configured prefix,
`CheckTx P` returns what the delegate's `CheckTxSync P` returns and `DeliverTx P`
what its `DeliverTxSync P` returns; the record of delegate invocations grows by
exactly that one call, carrying `P` itself, and the delegate is left in the
state that call put it in. -/
theorem C2_unprefixed_tx_relayed_once (app : ProxyApplication M σ) (P : Bytes) (w : World M σ)
    (h : ¬ app.pre <+: P) :
    ∃ w1 w2 : World M σ,
      app.CheckTx P w = some ((app.next.CheckTxSync P w.next).1, w1)
      ∧ w1.calls = w.calls ++ [ClientCall.CheckTxSync P]
      ∧ w1.next = (app.next.CheckTxSync P w.next).2
      ∧ app.DeliverTx P w = some ((app.next.DeliverTxSync P w.next).1, w2)
      ∧ w2.calls = w.calls ++ [ClientCall.DeliverTxSync P]
      ∧ w2.next = (app.next.DeliverTxSync P w.next).2 := by
  have hb : ¬ bytesHasPrefix P app.pre = true := fun hb => h ((bytesHasPrefix_iff P app.pre).mp hb)
  refine ⟨((LogCall "CheckTx" [("tx", LogValue.bytes P)] w).invoke (ClientCall.CheckTxSync P)
      (app.next.CheckTxSync P)).2,
    ((LogCall "DeliverTx" [("tx", LogValue.bytes P)] w).invoke (ClientCall.DeliverTxSync P)
      (app.next.DeliverTxSync P)).2, ?_, rfl, rfl, ?_, rfl, rfl⟩
  · unfold ProxyApplication.CheckTx
    simp only [hb, if_false]
    rfl
  · unfold ProxyApplication.DeliverTx
    simp only [hb, if_false]
    rfl

/-- C2 at the prefix `"ab"` and the payload `"ba"` on the stub delegate. -/
theorem C2_unprefixed_tx_relayed_once_witness :
    (¬ (NewProxyApp stubClient (ascii "ab")).pre <+: ascii "ba")
    ∧ ∃ w1 w2 : World natMessages Nat,
      (NewProxyApp stubClient (ascii "ab")).CheckTx (ascii "ba") stubWorld
        = some (((NewProxyApp stubClient (ascii "ab")).next.CheckTxSync (ascii "ba")
            stubWorld.next).1, w1)
      ∧ w1.calls = stubWorld.calls ++ [ClientCall.CheckTxSync (ascii "ba")]
      ∧ w1.next = ((NewProxyApp stubClient (ascii "ab")).next.CheckTxSync (ascii "ba")
            stubWorld.next).2
      ∧ (NewProxyApp stubClient (ascii "ab")).DeliverTx (ascii "ba") stubWorld
        = some (((NewProxyApp stubClient (ascii "ab")).next.DeliverTxSync (ascii "ba")
            stubWorld.next).1, w2)
      ∧ w2.calls = stubWorld.calls ++ [ClientCall.DeliverTxSync (ascii "ba")]
      ∧ w2.next = ((NewProxyApp stubClient (ascii "ab")).next.DeliverTxSync (ascii "ba")
            stubWorld.next).2 :=
  ⟨by decide, C2_unprefixed_tx_relayed_once (NewProxyApp stubClient (ascii "ab")) (ascii "ba")
    stubWorld (by decide)⟩

/-- C6: `Commit`, `Query`, `EndBlock` and `Info` do not look at the prefix. Each
returns the result or response of the delegate's `CommitSync`, `QuerySync`,
`EndBlockSync`, `InfoSync` on the same argument, records exactly that one
invocation, and leaves the delegate in the state that call put it in. -/
theorem C6_commit_query_endblock_info_relayed (app : ProxyApplication M σ) (w : World M σ)
    (reqQuery : M.RequestQuery) (height : Nat) :
    ((app.Commit w).1 = (app.next.CommitSync w.next).1
      ∧ (app.Commit w).2.calls = w.calls ++ [ClientCall.CommitSync]
      ∧ (app.Commit w).2.next = (app.next.CommitSync w.next).2)
    ∧ ((app.Query reqQuery w).1 = (app.next.QuerySync reqQuery w.next).1.1
      ∧ (app.Query reqQuery w).2.calls = w.calls ++ [ClientCall.QuerySync reqQuery]
      ∧ (app.Query reqQuery w).2.next = (app.next.QuerySync reqQuery w.next).2)
    ∧ ((app.EndBlock height w).1 = (app.next.EndBlockSync height w.next).1.1
      ∧ (app.EndBlock height w).2.calls = w.calls ++ [ClientCall.EndBlockSync height]
      ∧ (app.EndBlock height w).2.next = (app.next.EndBlockSync height w.next).2)
    ∧ ((app.Info w).1 = (app.next.InfoSync w.next).1.1
      ∧ (app.Info w).2.calls = w.calls ++ [ClientCall.InfoSync]
      ∧ (app.Info w).2.next = (app.next.InfoSync w.next).2) :=
  ⟨⟨rfl, rfl, rfl⟩, ⟨rfl, rfl, rfl⟩, ⟨rfl, rfl, rfl⟩, ⟨rfl, rfl, rfl⟩⟩


/-! ## The harness: ports -/

/-- The machine sum of a base and an identity is their sum whenever that sum
fits a 64-bit `int`. -/
theorem addInt_no_overflow (a b : Int) (hlo : -9223372036854775808 ≤ a + b)
    (hhi : a + b ≤ 9223372036854775807) : addInt a b = a + b := by
  unfold addInt wrapInt
  omega

/-- For an identity between 0 and 99 each port is its base plus the identity:
the machine sums do not wrap. -/
theorem ports_small_identity (n : BCNode) (h0 : 0 ≤ n.ID) (h99 : n.ID ≤ 99) :
    n.ProxyAppPort = 50000 + n.ID ∧ n.RPCPort = 50100 + n.ID ∧ n.P2PPort = 50200 + n.ID
      ∧ n.AppPort = 50300 + n.ID ∧ n.RPCProxyPort = 50400 + n.ID := by
  dsimp only [BCNodeID] at *
  simp only [BCNode.ProxyAppPort, BCNode.RPCPort, BCNode.P2PPort, BCNode.AppPort,
    BCNode.RPCProxyPort, ProxyAppPortStart, RPCPortStart, P2PPortStart, AppPortStart,
    RPCProxyStart]
  refine ⟨?_, ?_, ?_, ?_, ?_⟩ <;> exact addInt_no_overflow _ _ (by omega) (by omega)

/-- C3: for identities between 0 and 99, each port of a node is its base
(50000, 50100, 50200, 50300, 50400) plus the identity, the five ports of one
node are pairwise distinct, and no port of a node equals any port, of any kind,
of a node with another identity. -/
theorem C3_ports_distinct_within_and_across_nodes (n m : BCNode)
    (hn0 : 0 ≤ n.ID) (hn : n.ID ≤ 99) (hm0 : 0 ≤ m.ID) (hm : m.ID ≤ 99) :
    (n.ProxyAppPort = 50000 + n.ID ∧ n.RPCPort = 50100 + n.ID ∧ n.P2PPort = 50200 + n.ID
      ∧ n.AppPort = 50300 + n.ID ∧ n.RPCProxyPort = 50400 + n.ID)
    ∧ n.ports.Nodup
    ∧ (m.ID ≠ n.ID → ∀ x ∈ n.ports, ∀ y ∈ m.ports, x ≠ y) := by
  have hports : ∀ k : BCNode, 0 ≤ k.ID → k.ID ≤ 99 →
      k.ports = [50000 + k.ID, 50100 + k.ID, 50200 + k.ID, 50300 + k.ID, 50400 + k.ID] := by
    intro k hk0 hk
    obtain ⟨h1, h2, h3, h4, h5⟩ := ports_small_identity k hk0 hk
    simp only [BCNode.ports, h1, h2, h3, h4, h5]
  refine ⟨ports_small_identity n hn0 hn, ?_, ?_⟩
  · rw [hports n hn0 hn]
    simp only [List.nodup_cons, List.mem_cons, List.mem_singleton, List.not_mem_nil,
      List.nodup_nil, not_or, or_false, not_false_eq_true, and_true]
    omega
  · intro hne x hx y hy
    rw [hports n hn0 hn] at hx
    rw [hports m hm0 hm] at hy
    simp only [List.mem_cons, List.mem_singleton, List.not_mem_nil, or_false] at hx hy
    dsimp only [BCNodeID] at *
    omega

/-- C3 at the identities 0 and 99. -/
theorem C3_ports_distinct_within_and_across_nodes_witness :
    ((0 : Int) ≤ ({ ID := 0, wDir := [] } : BCNode).ID
      ∧ ({ ID := 0, wDir := [] } : BCNode).ID ≤ 99
      ∧ 0 ≤ ({ ID := 99, wDir := [] } : BCNode).ID
      ∧ ({ ID := 99, wDir := [] } : BCNode).ID ≤ 99)
    ∧ ((({ ID := 0, wDir := [] } : BCNode).ProxyAppPort
          = 50000 + ({ ID := 0, wDir := [] } : BCNode).ID
        ∧ ({ ID := 0, wDir := [] } : BCNode).RPCPort
          = 50100 + ({ ID := 0, wDir := [] } : BCNode).ID
        ∧ ({ ID := 0, wDir := [] } : BCNode).P2PPort
          = 50200 + ({ ID := 0, wDir := [] } : BCNode).ID
        ∧ ({ ID := 0, wDir := [] } : BCNode).AppPort
          = 50300 + ({ ID := 0, wDir := [] } : BCNode).ID
        ∧ ({ ID := 0, wDir := [] } : BCNode).RPCProxyPort
          = 50400 + ({ ID := 0, wDir := [] } : BCNode).ID)
      ∧ ({ ID := 0, wDir := [] } : BCNode).ports.Nodup
      ∧ (({ ID := 99, wDir := [] } : BCNode).ID ≠ ({ ID := 0, wDir := [] } : BCNode).ID →
          ∀ x ∈ ({ ID := 0, wDir := [] } : BCNode).ports,
            ∀ y ∈ ({ ID := 99, wDir := [] } : BCNode).ports, x ≠ y)) :=
  ⟨by decide, C3_ports_distinct_within_and_across_nodes { ID := 0, wDir := [] }
    { ID := 99, wDir := [] } (by decide) (by decide) (by decide) (by decide)⟩

/-! ## The harness: construction -/

/-- A node that `NewBCNode` returns carries the identity it was given, and that
identity is at most 99. -/
theorem NewBCNode_some_id (env : Env) (ID : BCNodeID) (rootDir : GoString) (n : BCNode)
    (h : (NewBCNode env ID rootDir).1.1 = some n) : n.ID = ID ∧ ID ≤ 99 := by
  unfold NewBCNode at h
  by_cases hID : ID > MaxBCNodeID
  · simp [hID] at h
  · simp only [hID, if_false] at h
    have h99 : ID ≤ 99 := by
      unfold MaxBCNodeID at hID
      dsimp only [BCNodeID] at *
      omega
    split at h
    · simp at h
    · split at h
      · simp at h
      · simp only [Option.some.injEq] at h
        exact ⟨by rw [← h], h99⟩

/-- On a node that `NewBCNode` returned for an identity a machine `int` can
hold, no port sum wraps around: each port is its base plus the identity. -/
theorem NewBCNode_ports_do_not_wrap (env : Env) (ID : BCNodeID) (rootDir : GoString)
    (n : BCNode) (h : (NewBCNode env ID rootDir).1.1 = some n)
    (hmin : -9223372036854775808 ≤ ID) :
    n.ports = [50000 + ID, 50100 + ID, 50200 + ID, 50300 + ID, 50400 + ID] := by
  obtain ⟨hid, h99⟩ := NewBCNode_some_id env ID rootDir n h
  dsimp only [BCNodeID] at *
  subst hid
  simp only [BCNode.ports, BCNode.ProxyAppPort, BCNode.RPCPort, BCNode.P2PPort, BCNode.AppPort,
    BCNode.RPCProxyPort, ProxyAppPortStart, RPCPortStart, P2PPortStart, AppPortStart,
    RPCProxyStart]
  rw [addInt_no_overflow _ _ (by omega) (by omega), addInt_no_overflow _ _ (by omega) (by omega),
    addInt_no_overflow _ _ (by omega) (by omega), addInt_no_overflow _ _ (by omega) (by omega),
    addInt_no_overflow _ _ (by omega) (by omega)]

/-- C5: for an identity above 99, `NewBCNode` returns no node and the error
"Maximum  BCNodeID for test is 99, got <identity>", and it has made no call at
all: `os.MkdirAll` was not called and the initialization was not run. -/
theorem C5_identity_above_max_rejected_without_effects (env : Env) (ID : BCNodeID)
    (rootDir : GoString) (h : ID > 99) :
    NewBCNode env ID rootDir
      = ((none, some (ascii "Maximum  BCNodeID for test is 99, got " ++ fmtD ID)), []) := by
  have hID : ID > MaxBCNodeID := h
  unfold NewBCNode
  rw [if_pos hID]
  have h99 : ascii "Maximum  BCNodeID for test is " ++ fmtD MaxBCNodeID ++ ascii ", got "
      = ascii "Maximum  BCNodeID for test is 99, got " := by decide
  rw [h99]

/-- C5 at the identity 100 and the root `/tmp`. -/
theorem C5_identity_above_max_rejected_without_effects_witness :
    (100 : BCNodeID) > 99
    ∧ NewBCNode allSucceed 100 (ascii "/tmp")
      = ((none, some (ascii "Maximum  BCNodeID for test is 99, got " ++ fmtD 100)), []) :=
  ⟨by decide, C5_identity_above_max_rejected_without_effects allSucceed 100 (ascii "/tmp")
    (by decide)⟩

/-- C10, evaluated at the identity -1: when the directory can be created and
the initialization succeeds, `NewBCNode` returns a node, without error, whose
identity is -1 and whose directory is `/tmp/BCNode-1`; the RPC port of that node
is the proxy port of the node 99. -/
theorem C10_negative_identity_accepted :
    NewBCNode allSucceed (-1) (ascii "/tmp")
      = ((some { ID := -1, wDir := ascii "/tmp/BCNode-1" }, none),
         [Action.MkdirAll (ascii "/tmp/BCNode-1") 0o755,
          Action.CombinedOutput
            [ascii "tendermint", ascii "init", ascii "--home", ascii "/tmp/BCNode-1"]])
    ∧ ({ ID := -1, wDir := ascii "/tmp/BCNode-1" } : BCNode).RPCPort
        = ({ ID := 99, wDir := ascii "/tmp/BCNode99" } : BCNode).ProxyAppPort := by
  decide

/-! ## The harness: start and stop -/

/-- A run of `Start` that returns no error leaves the node with the subprocess
spawned and the three services assigned. -/
theorem Start_ok_leaves_handles (env : Env) (n : BCNode) (peers : List BCNode)
    (h : (n.Start env peers).1 = none) :
    (n.afterStart env peers).tmNodeCmd = CmdHandle.started
    ∧ (n.afterStart env peers).proxyService = true
    ∧ (n.afterStart env peers).appClient = true
    ∧ (n.afterStart env peers).app = true
    ∧ (n.afterStart env peers).ID = n.ID := by
  unfold BCNode.Start BCNode.StartRun at h
  unfold BCNode.afterStart BCNode.StartRun
  cases h1 : env.NewServer Service.app (BCNode.tcpAddr n.AppPort) (ascii "socket") <;>
  cases h2 : env.ServiceStart Service.app <;>
  cases h3 : env.ServiceStart Service.appClient <;>
  cases h4 : env.NewServer Service.proxyService (BCNode.tcpAddr n.ProxyAppPort)
    (ascii "socket") <;>
  cases h5 : env.ServiceStart Service.proxyService <;>
  cases h6 : env.CmdStart (n.nodeArgv peers) <;>
  simp [h1, h2, h3, h4, h5, h6] at h ⊢

/-- On a node as `NewBCNode` returns it, `Stop` panics before making any call:
`tmNodeCmd` is nil. -/
theorem Stop_unstarted_panics (env env2 : Env) (ID : BCNodeID) (rootDir : GoString)
    (n : BCNode) (h : (NewBCNode env ID rootDir).1.1 = some n) :
    n.Stop env2 = (none, []) := by
  have hcmd : n.tmNodeCmd = CmdHandle.nil := by
    unfold NewBCNode at h
    by_cases hID : ID > MaxBCNodeID
    · simp [hID] at h
    · simp only [hID, if_false] at h
      split at h
      · simp at h
      · split at h
        · simp at h
        · simp only [Option.some.injEq] at h
          rw [← h]
  unfold BCNode.Stop
  rw [hcmd]

/-- C7: the calls of `Stop` are an initial part of the fixed sequence interrupt,
wait, stop the proxy server, stop the client connection, stop the application
server. `Stop` returns no error exactly when the interrupt is made and
succeeds, the wait reports no error or "signal: interrupt" or "exit status 1",
and the three service stops are made and report success, and then it has made
all five calls. On a node that `Start` has brought up, whose subprocess is
spawned and whose three services are assigned, that is exactly when the
interrupt succeeds, the wait reports one of the three outcomes and the three
stops report success; `Stop` does not panic; and when a step fails, `Stop`
returns the error naming that step and has made no later call. On a node whose
subprocess was not spawned `Stop` panics without making a call. -/
theorem C7_stop_order_and_first_failure (env : Env) (n : BCNode) :
    (n.Stop env).2 <+: stopActions
    ∧ ((n.Stop env).1 = some none ↔
        ((n.tmNodeCmd = CmdHandle.started ∧ env.SignalInterrupt = none)
          ∧ (env.Wait = none ∨ env.Wait = some (ascii "signal: interrupt")
              ∨ env.Wait = some (ascii "exit status 1"))
          ∧ (n.proxyService = true ∧ env.ServiceStop Service.proxyService = true)
          ∧ (n.appClient = true ∧ env.ServiceStop Service.appClient = true)
          ∧ (n.app = true ∧ env.ServiceStop Service.app = true)))
    ∧ ((n.Stop env).1 = some none → (n.Stop env).2 = stopActions)
    ∧ (n.tmNodeCmd ≠ CmdHandle.started → n.Stop env = (none, []))
    ∧ (n.tmNodeCmd = CmdHandle.started → n.proxyService = true → n.appClient = true →
        n.app = true →
      (n.Stop env).1 ≠ none
      ∧ ((n.Stop env).1 = some none ↔
          (env.SignalInterrupt = none
            ∧ (env.Wait = none ∨ env.Wait = some (ascii "signal: interrupt")
                ∨ env.Wait = some (ascii "exit status 1"))
            ∧ env.ServiceStop Service.proxyService = true
            ∧ env.ServiceStop Service.appClient = true
            ∧ env.ServiceStop Service.app = true))
      ∧ (∀ err, env.SignalInterrupt = some err →
          n.Stop env
            = (some (some (ascii "Could not interrupt tendermint node [" ++ fmtD n.ID
                ++ ascii "]: " ++ err ++ ascii "\n---output---\n" ++ env.tmNodeOutput)),
               [Action.SignalInterrupt]))
      ∧ (∀ err, env.SignalInterrupt = none → env.Wait = some err →
          err ≠ ascii "signal: interrupt" → err ≠ ascii "exit status 1" →
          n.Stop env
            = (some (some (ascii "Could not wait on interupt of tendermint node [" ++ fmtD n.ID
                ++ ascii "] : " ++ err ++ ascii "\n---output---\n" ++ env.tmNodeOutput)),
               [Action.SignalInterrupt, Action.Wait]))
      ∧ (env.SignalInterrupt = none →
          (env.Wait = none ∨ env.Wait = some (ascii "signal: interrupt")
            ∨ env.Wait = some (ascii "exit status 1")) →
          (env.ServiceStop Service.proxyService = false →
            n.Stop env
              = (some (some (ascii "Could not stop proxy service " ++ fmtD n.ID)),
                 [Action.SignalInterrupt, Action.Wait, Action.ServiceStop Service.proxyService]))
          ∧ (env.ServiceStop Service.proxyService = true →
              env.ServiceStop Service.appClient = false →
            n.Stop env
              = (some (some (ascii "Could not close target app connection " ++ fmtD n.ID)),
                 [Action.SignalInterrupt, Action.Wait, Action.ServiceStop Service.proxyService,
                  Action.ServiceStop Service.appClient]))
          ∧ (env.ServiceStop Service.proxyService = true →
              env.ServiceStop Service.appClient = true →
              env.ServiceStop Service.app = false →
            n.Stop env
              = (some (some (ascii "Could not stop target app " ++ fmtD n.ID)),
                 stopActions)))) := by
  have hsvc : ∀ t2 : List Action, t2 = [Action.SignalInterrupt, Action.Wait] →
      (BCNode.stopServices env n t2).2 <+: stopActions
      ∧ ((BCNode.stopServices env n t2).1 = some none ↔
          ((n.proxyService = true ∧ env.ServiceStop Service.proxyService = true)
            ∧ (n.appClient = true ∧ env.ServiceStop Service.appClient = true)
            ∧ (n.app = true ∧ env.ServiceStop Service.app = true)))
      ∧ ((BCNode.stopServices env n t2).1 = some none →
          (BCNode.stopServices env n t2).2 = stopActions)
      ∧ (n.proxyService = true → n.appClient = true → n.app = true →
        (BCNode.stopServices env n t2).1 ≠ none
        ∧ (env.ServiceStop Service.proxyService = false →
            BCNode.stopServices env n t2
              = (some (some (ascii "Could not stop proxy service " ++ fmtD n.ID)),
                 [Action.SignalInterrupt, Action.Wait, Action.ServiceStop Service.proxyService]))
        ∧ (env.ServiceStop Service.proxyService = true →
            env.ServiceStop Service.appClient = false →
            BCNode.stopServices env n t2
              = (some (some (ascii "Could not close target app connection " ++ fmtD n.ID)),
                 [Action.SignalInterrupt, Action.Wait, Action.ServiceStop Service.proxyService,
                  Action.ServiceStop Service.appClient]))
        ∧ (env.ServiceStop Service.proxyService = true →
            env.ServiceStop Service.appClient = true →
            env.ServiceStop Service.app = false →
            BCNode.stopServices env n t2
              = (some (some (ascii "Could not stop target app " ++ fmtD n.ID)),
                 stopActions))) := by
    intro t2 ht2
    subst ht2
    unfold BCNode.stopServices stopActions
    cases hp : env.ServiceStop Service.proxyService <;>
    cases hc : env.ServiceStop Service.appClient <;>
    cases ha : env.ServiceStop Service.app <;>
    cases hnp : n.proxyService <;>
    cases hnc : n.appClient <;>
    cases hna : n.app <;>
    simp [List.prefix_iff_eq_take]
  unfold BCNode.Stop
  cases hcmd : n.tmNodeCmd with
  | nil => simp
  | created => simp
  | started =>
    cases hs : env.SignalInterrupt with
    | some e =>
      simp [stopActions, List.prefix_iff_eq_take]
    | none =>
      cases hw : env.Wait with
      | none =>
        obtain ⟨a1, a2, a3, a4⟩ := hsvc _ rfl
        simp only [List.singleton_append, ne_eq, not_true_eq_false, true_and, true_or,
          reduceCtorEq, false_imp_iff, imp_true_iff, forall_const, not_false_eq_true, and_true,
          and_self, implies_true]
        refine ⟨a1, a2, a3, fun h1 h2 h3 => ?_⟩
        obtain ⟨b1, b2, b3, b4⟩ := a4 h1 h2 h3
        refine ⟨b1, ?_, b2, b3, b4⟩
        rw [a2]
        simp [h1, h2, h3]
      | some e =>
        by_cases h1 : e = ascii "signal: interrupt"
        · obtain ⟨a1, a2, a3, a4⟩ := hsvc _ rfl
          simp only [h1]
          simp
          refine ⟨a1, a2, a3, fun g1 g2 g3 => ?_⟩
          obtain ⟨b1, b2, b3, b4⟩ := a4 g1 g2 g3
          refine ⟨b1, ?_, b2, b3, b4⟩
          rw [a2]
          simp [g1, g2, g3]
        · by_cases h2 : e = ascii "exit status 1"
          · obtain ⟨a1, a2, a3, a4⟩ := hsvc _ rfl
            simp only [h2]
            simp
            refine ⟨a1, a2, a3, fun g1 g2 g3 => ?_⟩
            obtain ⟨b1, b2, b3, b4⟩ := a4 g1 g2 g3
            refine ⟨b1, ?_, b2, b3, b4⟩
            rw [a2]
            simp [g1, g2, g3]
          · simp [h1, h2, stopActions, List.prefix_iff_eq_take]

/-- C7 on the node that a successful `Start` leaves, in an environment in which
the consensus subprocess exits with "exit status 1" and the client connection
refuses to stop: `Stop` reports that failure after four calls and does not stop
the application server. -/
theorem C7_stop_order_and_first_failure_witness :
    BCNode.Stop { allSucceed with
        Wait := some (ascii "exit status 1")
        ServiceStop := fun s => decide (s ≠ Service.appClient) }
      (BCNode.afterStart allSucceed { ID := 7, wDir := ascii "/tmp/BCNode07" } [])
      = (some (some (ascii "Could not close target app connection 7")),
         [Action.SignalInterrupt, Action.Wait, Action.ServiceStop Service.proxyService,
          Action.ServiceStop Service.appClient]) :=
  (((C7_stop_order_and_first_failure { allSucceed with
        Wait := some (ascii "exit status 1")
        ServiceStop := fun s => decide (s ≠ Service.appClient) }
      (BCNode.afterStart allSucceed { ID := 7, wDir := ascii "/tmp/BCNode07" } [])).2.2.2.2
      (by decide) (by decide) (by decide) (by decide)).2.2.2.2 rfl (Or.inr (Or.inr rfl))).2.1
    (by decide) (by decide)

/-- C8: the calls of `Start` are an initial part of the fixed sequence
`startActions`, in which the application server is started, then the client
connection opened, then the proxy constructed, then the proxy server started,
then the consensus subprocess spawned. The subprocess is spawned only after a
successful start of the proxy server. `Start` never stops a service, interrupts
or waits. When a step fails, `Start` returns that step's error and has made no
later call; when none fails it returns no error and has made all calls. -/
theorem C8_start_order_and_first_failure (env : Env) (n : BCNode) (peers : List BCNode) :
    (n.Start env peers).2 <+: startActions n peers
    ∧ (startActions n peers).Nodup
    ∧ List.Sublist
        [Action.ServiceStart Service.app, Action.ServiceStart Service.appClient,
         Action.NewProxyApp, Action.ServiceStart Service.proxyService,
         Action.CmdStart (n.nodeArgv peers)]
        (startActions n peers)
    ∧ (∀ argv, Action.CmdStart argv ∈ (n.Start env peers).2 →
        env.ServiceStart Service.proxyService = none
        ∧ ∃ before after, (n.Start env peers).2
            = before ++ Action.ServiceStart Service.proxyService :: after
          ∧ Action.CmdStart argv ∈ after)
    ∧ (∀ a ∈ (n.Start env peers).2,
        a ≠ Action.SignalInterrupt ∧ a ≠ Action.Wait ∧ ∀ s, a ≠ Action.ServiceStop s)
    ∧ (∀ err, env.NewServer Service.app (BCNode.tcpAddr n.AppPort) (ascii "socket") = some err →
        n.Start env peers = (some err, (startActions n peers).take 1))
    ∧ (env.NewServer Service.app (BCNode.tcpAddr n.AppPort) (ascii "socket") = none →
      (∀ err, env.ServiceStart Service.app = some err →
        n.Start env peers = (some err, (startActions n peers).take 3))
      ∧ (env.ServiceStart Service.app = none →
        (∀ err, env.ServiceStart Service.appClient = some err →
          n.Start env peers = (some err, (startActions n peers).take 6))
        ∧ (env.ServiceStart Service.appClient = none →
          (∀ err, env.NewServer Service.proxyService (BCNode.tcpAddr n.ProxyAppPort)
                (ascii "socket") = some err →
            n.Start env peers = (some err, (startActions n peers).take 8))
          ∧ (env.NewServer Service.proxyService (BCNode.tcpAddr n.ProxyAppPort)
                (ascii "socket") = none →
            (∀ err, env.ServiceStart Service.proxyService = some err →
              n.Start env peers = (some err, (startActions n peers).take 10))
            ∧ (env.ServiceStart Service.proxyService = none →
              (∀ err, env.CmdStart (n.nodeArgv peers) = some err →
                n.Start env peers = (some err, startActions n peers))
              ∧ (env.CmdStart (n.nodeArgv peers) = none →
                n.Start env peers = (none, startActions n peers))))))) := by
  refine ⟨?_, ?_, ?_, ?_, ?_, ?_, ?_⟩
  · unfold BCNode.Start BCNode.StartRun startActions
    cases env.NewServer Service.app (BCNode.tcpAddr n.AppPort) (ascii "socket") <;>
    cases env.ServiceStart Service.app <;>
    cases env.ServiceStart Service.appClient <;>
    cases env.NewServer Service.proxyService (BCNode.tcpAddr n.ProxyAppPort) (ascii "socket") <;>
    cases env.ServiceStart Service.proxyService <;>
    cases env.CmdStart (n.nodeArgv peers) <;>
    simp [List.prefix_iff_eq_take]
  · simp [startActions]
  · exact List.Sublist.cons _ (List.Sublist.cons _ (List.Sublist.cons₂ _ (List.Sublist.cons _
      (List.Sublist.cons _ (List.Sublist.cons₂ _ (List.Sublist.cons₂ _ (List.Sublist.cons _
      (List.Sublist.cons _ (List.Sublist.cons₂ _ (List.Sublist.cons₂ _ List.Sublist.slnil))))))))))
  · intro argv
    unfold BCNode.Start BCNode.StartRun
    cases env.NewServer Service.app (BCNode.tcpAddr n.AppPort) (ascii "socket") <;>
    cases env.ServiceStart Service.app <;>
    cases env.ServiceStart Service.appClient <;>
    cases env.NewServer Service.proxyService (BCNode.tcpAddr n.ProxyAppPort) (ascii "socket") <;>
    cases hp : env.ServiceStart Service.proxyService <;>
    cases env.CmdStart (n.nodeArgv peers) <;>
    first
      | (intro h
         simp at h
         done)
      | (intro h
         have hargv : argv = n.nodeArgv peers := by simpa using h
         subst hargv
         exact ⟨rfl,
           [Action.NewServer Service.app (BCNode.tcpAddr n.AppPort) (ascii "socket"),
            Action.SetLogger Service.app, Action.ServiceStart Service.app, Action.Sleep 20,
            Action.NewSocketClient (BCNode.tcpAddr n.AppPort) true,
            Action.ServiceStart Service.appClient, Action.NewProxyApp,
            Action.NewServer Service.proxyService (BCNode.tcpAddr n.ProxyAppPort)
              (ascii "socket"),
            Action.SetLogger Service.proxyService],
           [Action.CmdStart (n.nodeArgv peers)], rfl, List.mem_singleton.mpr rfl⟩)
  · unfold BCNode.Start BCNode.StartRun
    cases env.NewServer Service.app (BCNode.tcpAddr n.AppPort) (ascii "socket") <;>
    cases env.ServiceStart Service.app <;>
    cases env.ServiceStart Service.appClient <;>
    cases env.NewServer Service.proxyService (BCNode.tcpAddr n.ProxyAppPort) (ascii "socket") <;>
    cases env.ServiceStart Service.proxyService <;>
    cases env.CmdStart (n.nodeArgv peers) <;>
    simp
  · intro err h
    simp [BCNode.Start, BCNode.StartRun, startActions, h]
  · intro h1
    refine ⟨fun err h => by simp [BCNode.Start, BCNode.StartRun, startActions, h1, h], fun h2 => ?_⟩
    refine ⟨fun err h => by simp [BCNode.Start, BCNode.StartRun, startActions, h1, h2, h], fun h3 => ?_⟩
    refine ⟨fun err h => by simp [BCNode.Start, BCNode.StartRun, startActions, h1, h2, h3, h], fun h4 => ?_⟩
    refine ⟨fun err h => by simp [BCNode.Start, BCNode.StartRun, startActions, h1, h2, h3, h4, h], fun h5 => ?_⟩
    exact ⟨fun err h => by simp [BCNode.Start, BCNode.StartRun, startActions, h1, h2, h3, h4, h5, h],
      fun h => by simp [BCNode.Start, BCNode.StartRun, startActions, h1, h2, h3, h4, h5, h]⟩

/-- C8 on an environment in which the proxy server fails to start: `Start`
returns that error after ten calls, the subprocess not being spawned. -/
theorem C8_start_order_and_first_failure_witness :
    BCNode.Start { allSucceed with
        ServiceStart := fun s =>
          if s = Service.proxyService then some (ascii "address already in use") else none }
      { ID := 0, wDir := ascii "/tmp/BCNode00" }
      [{ ID := 0, wDir := ascii "/tmp/BCNode00" }, { ID := 1, wDir := ascii "/tmp/BCNode01" }]
      = (some (ascii "address already in use"),
         (startActions { ID := 0, wDir := ascii "/tmp/BCNode00" }
            [{ ID := 0, wDir := ascii "/tmp/BCNode00" },
             { ID := 1, wDir := ascii "/tmp/BCNode01" }]).take 10) :=
  (((((C8_start_order_and_first_failure { allSucceed with
        ServiceStart := fun s =>
          if s = Service.proxyService then some (ascii "address already in use") else none }
      { ID := 0, wDir := ascii "/tmp/BCNode00" }
      [{ ID := 0, wDir := ascii "/tmp/BCNode00" },
       { ID := 1, wDir := ascii "/tmp/BCNode01" }]).2.2.2.2.2.2 rfl).2 rfl).2 rfl).2 rfl).1
    (ascii "address already in use") rfl

/-! ## Decimal formatting -/

/-- The byte written for a digit is the ASCII digit. -/
theorem digitByte_cases (d : Nat) (h : d < 10) :
    (UInt8.ofNat (Nat.digitChar d).toNat).toNat = 48 + d := by
  interval_cases d <;> rfl

theorem toDigitsCore_append (fuel : Nat) : ∀ (n : Nat) (ds : List Char),
    Nat.toDigitsCore 10 fuel n ds = Nat.toDigitsCore 10 fuel n [] ++ ds := by
  induction fuel with
  | zero => intro n ds; simp [Nat.toDigitsCore]
  | succ f ih =>
    intro n ds
    simp only [Nat.toDigitsCore]
    split
    · simp
    · rw [ih (n / 10) (Nat.digitChar (n % 10) :: ds), ih (n / 10) [Nat.digitChar (n % 10)]]
      simp

theorem toDigitsCore_ne_nil (fuel n : Nat) : Nat.toDigitsCore 10 (fuel + 1) n [] ≠ [] := by
  simp only [Nat.toDigitsCore]
  split
  · simp
  · rw [toDigitsCore_append]
    simp

theorem toDigitsCore_digits (fuel : Nat) : ∀ (n : Nat), ∀ c ∈ Nat.toDigitsCore 10 fuel n [],
    ∃ d, d < 10 ∧ c = Nat.digitChar d := by
  induction fuel with
  | zero => intro n c hc; simp [Nat.toDigitsCore] at hc
  | succ f ih =>
    intro n c hc
    simp only [Nat.toDigitsCore] at hc
    split at hc
    · simp only [List.mem_singleton] at hc
      exact ⟨n % 10, Nat.mod_lt _ (by decide), hc⟩
    · rw [toDigitsCore_append] at hc
      rcases List.mem_append.mp hc with h | h
      · exact ih _ c h
      · simp only [List.mem_singleton] at h
        exact ⟨n % 10, Nat.mod_lt _ (by decide), h⟩

theorem decimal_ne_nil (n : Nat) : decimal n ≠ [] := by
  unfold decimal Nat.toDigits
  simpa using toDigitsCore_ne_nil n n

/-- Every byte of a decimal rendering is one of the digits `0` to `9`. -/
theorem decimal_bytes (n : Nat) : ∀ b ∈ decimal n, 48 ≤ b.toNat ∧ b.toNat ≤ 57 := by
  intro b hb
  unfold decimal Nat.toDigits at hb
  obtain ⟨c, hc, rfl⟩ := List.mem_map.mp hb
  obtain ⟨d, hd, rfl⟩ := toDigitsCore_digits _ _ c hc
  rw [digitByte_cases d hd]
  omega

/-- Reading a decimal rendering back, digit by digit, gives the number. -/
theorem decimalValue_core (fuel : Nat) : ∀ n, n < fuel →
    ((Nat.toDigitsCore 10 fuel n []).map (fun c => UInt8.ofNat c.toNat)).foldl
      (fun acc (b : Byte) => acc * 10 + (b.toNat - 48)) 0 = n := by
  induction fuel with
  | zero => intro n h; omega
  | succ f ih =>
    intro n hn
    simp only [Nat.toDigitsCore]
    split
    · rename_i h0
      simp only [List.map_cons, List.map_nil, List.foldl_cons, List.foldl_nil]
      rw [digitByte_cases _ (Nat.mod_lt _ (by decide))]
      omega
    · rename_i h0
      rw [toDigitsCore_append, List.map_append, List.foldl_append, ih (n / 10) (by omega)]
      simp only [List.map_cons, List.map_nil, List.foldl_cons, List.foldl_nil]
      rw [digitByte_cases _ (Nat.mod_lt _ (by decide))]
      omega

theorem decimal_injective (a b : Nat) (h : decimal a = decimal b) : a = b := by
  have ha := decimalValue_core (a + 1) a (by omega)
  have hb := decimalValue_core (b + 1) b (by omega)
  unfold decimal Nat.toDigits at h
  rw [h] at ha
  omega

theorem fmtD_ne_nil (i : Int) : fmtD i ≠ [] := by
  cases i with
  | ofNat n => exact decimal_ne_nil n
  | negSucc n => simp [fmtD, ascii]

/-- `%d` writes digits and possibly a minus sign (byte 45), nothing else. -/
theorem fmtD_bytes (i : Int) : ∀ b ∈ fmtD i, b.toNat = 45 ∨ (48 ≤ b.toNat ∧ b.toNat ≤ 57) := by
  intro b hb
  cases i with
  | ofNat n => exact Or.inr (decimal_bytes n b hb)
  | negSucc n =>
    simp only [fmtD, ascii, List.mem_append, List.map_cons, List.map_nil, List.mem_singleton] at hb
    rcases hb with h | h
    · left; rw [h]; rfl
    · exact Or.inr (decimal_bytes _ b h)

theorem fmtD_injective (i j : Int) (h : fmtD i = fmtD j) : i = j := by
  have hhead : ∀ n m : Nat, decimal n ≠ ascii "-" ++ decimal m := by
    intro n m heq
    have hne := decimal_ne_nil n
    cases hd : decimal n with
    | nil => exact hne hd
    | cons x xs =>
      have hx := decimal_bytes n x (by rw [hd]; exact List.mem_cons_self _ _)
      rw [hd] at heq
      have : x = 45 := by
        simp only [ascii, List.map_cons, List.map_nil, List.singleton_append, List.cons.injEq] at heq
        rw [heq.1]; rfl
      rw [this] at hx
      have h45 : (45 : UInt8).toNat = 45 := rfl
      omega
  cases i with
  | ofNat n =>
    cases j with
    | ofNat m => simp only [fmtD] at h; rw [decimal_injective n m h]
    | negSucc m => simp only [fmtD] at h; exact absurd h (hhead n (m + 1))
  | negSucc n =>
    cases j with
    | ofNat m => simp only [fmtD] at h; exact absurd h.symm (hhead m (n + 1))
    | negSucc m =>
      simp only [fmtD, List.append_cancel_left_eq] at h
      have := decimal_injective _ _ h
      have hnm : n = m := by omega
      rw [hnm]

/-! ## The harness: the peer list -/

theorem intercalate_concat (sep : GoString) (xs : List GoString) (y : GoString) :
    List.intercalate sep (xs ++ [y])
      = if xs = [] then y else List.intercalate sep xs ++ sep ++ y := by
  induction xs with
  | nil => simp [List.intercalate]
  | cons x xs ih =>
    cases xs with
    | nil => simp [List.intercalate]
    | cons x2 xs2 =>
      simp only [List.intercalate, List.cons_append, List.intersperse_cons_cons,
        List.flatten_cons, List.append_assoc] at ih ⊢
      simp only [reduceCtorEq, if_false] at ih ⊢
      rw [ih]

theorem intercalate_eq_nil_iff (sep : GoString) (xs : List GoString)
    (hne : ∀ x ∈ xs, x ≠ []) : List.intercalate sep xs = [] ↔ xs = [] := by
  cases xs with
  | nil => simp [List.intercalate]
  | cons x xs =>
    have hx : x ≠ [] := hne x (List.mem_cons_self _ _)
    cases xs with
    | nil => simpa [List.intercalate] using hx
    | cons x2 xs2 => simp [List.intercalate, hx]

/-- The address `127.0.0.1:<port>` is not empty. -/
theorem peerAddr_ne_nil (port : Int) : ascii "127.0.0.1:" ++ fmtD port ≠ [] := by
  simp [ascii]

/-- The loop of `FormatPeerListOptions`, started on the joined addresses of the
peers `done`, ends on the joined addresses of `done` and the remaining peers
whose identity is not the node's own. -/
theorem formatPeer_foldl (n : BCNode) (peers : List BCNode) : ∀ done : List BCNode,
    peers.foldl (BCNode.formatPeerStep n)
        (List.intercalate (ascii ",")
          (done.map (fun p => ascii "127.0.0.1:" ++ fmtD (addInt 50200 p.ID))))
      = List.intercalate (ascii ",")
          ((done ++ peers.filter (fun p => decide (p.ID ≠ n.ID))).map
            (fun p => ascii "127.0.0.1:" ++ fmtD (addInt 50200 p.ID))) := by
  induction peers with
  | nil => intro done; simp
  | cons p ps ih =>
    intro done
    rw [List.foldl_cons]
    by_cases hp : p.ID = n.ID
    · have hstep : ∀ res, BCNode.formatPeerStep n res p = res := by
        intro res
        simp [BCNode.formatPeerStep, hp]
      rw [hstep, ih done]
      simp [hp]
    · have hfilter : (p :: ps).filter (fun p => decide (p.ID ≠ n.ID))
          = p :: ps.filter (fun p => decide (p.ID ≠ n.ID)) := by
        simp [hp]
      have hstep : BCNode.formatPeerStep n
            (List.intercalate (ascii ",")
              (done.map (fun p => ascii "127.0.0.1:" ++ fmtD (addInt 50200 p.ID)))) p
          = List.intercalate (ascii ",")
              ((done ++ [p]).map (fun p => ascii "127.0.0.1:" ++ fmtD (addInt 50200 p.ID))) := by
        rw [List.map_append, List.map_singleton, intercalate_concat]
        simp only [BCNode.formatPeerStep, hp, if_false, BCNode.P2PPort, P2PPortStart]
        by_cases hd : done = []
        · subst hd
          simp [List.intercalate]
        · have hmap : done.map (fun p => ascii "127.0.0.1:" ++ fmtD (addInt 50200 p.ID)) ≠ [] := by
            simpa using hd
          have hlen : (List.intercalate (ascii ",")
              (done.map (fun p => ascii "127.0.0.1:" ++ fmtD (addInt 50200 p.ID)))).length > 0 := by
            apply List.length_pos.mpr
            intro h0
            apply hmap
            refine (intercalate_eq_nil_iff _ _ ?_).mp h0
            intro x hx
            obtain ⟨q, _, rfl⟩ := List.mem_map.mp hx
            exact peerAddr_ne_nil _
          rw [if_pos hlen, if_neg hmap]
      rw [hstep, ih (done ++ [p]), hfilter]
      simp

/-- The address `127.0.0.1:<port>` contains no comma (byte 44). -/
theorem peerAddr_no_comma (port : Int) : (44 : Byte) ∉ ascii "127.0.0.1:" ++ fmtD port := by
  intro h
  rcases List.mem_append.mp h with h | h
  · revert h
    decide
  · have := fmtD_bytes port 44 h
    have h44 : (44 : UInt8).toNat = 44 := rfl
    omega

theorem intercalate_no_leading_sep (xs : List GoString)
    (hxs : ∀ x ∈ xs, x ≠ [] ∧ (44 : Byte) ∉ x) :
    ¬ (ascii "," <+: List.intercalate (ascii ",") xs) := by
  intro hpre
  cases xs with
  | nil => simp [List.intercalate, ascii] at hpre
  | cons x rest =>
    obtain ⟨hne, hno⟩ := hxs x (List.mem_cons_self _ _)
    cases x with
    | nil => exact hne rfl
    | cons b bs =>
      have hb : b ≠ 44 := fun hb => hno (by rw [hb]; exact List.mem_cons_self _ _)
      have hhead : (List.intercalate (ascii ",") ((b :: bs) :: rest)).head? = some b := by
        cases rest <;> simp [List.intercalate]
      obtain ⟨t, ht⟩ := hpre
      rw [← ht] at hhead
      simp [ascii] at hhead
      exact hb hhead.symm

theorem intercalate_no_trailing_sep (xs : List GoString)
    (hxs : ∀ x ∈ xs, x ≠ [] ∧ (44 : Byte) ∉ x) :
    ¬ (ascii "," <:+ List.intercalate (ascii ",") xs) := by
  intro hsuf
  rcases List.eq_nil_or_concat xs with hnil | ⟨ys, y, hcat⟩
  · subst hnil
    simp [List.intercalate, ascii] at hsuf
  · subst hcat
    rw [List.concat_eq_append] at hxs hsuf
    obtain ⟨hne, hno⟩ := hxs y (by simp)
    rcases List.eq_nil_or_concat y with hynil | ⟨bs, b, hy⟩
    · exact hne hynil
    · subst hy
      rw [List.concat_eq_append] at hno hsuf
      have hb : b ≠ 44 := fun hb => hno (by rw [hb]; simp)
      have hlast : (List.intercalate (ascii ",") (ys ++ [bs ++ [b]])).getLast? = some b := by
        rw [intercalate_concat]
        split <;> simp [← List.append_assoc]
      obtain ⟨t, ht⟩ := hsuf
      rw [← ht] at hlast
      simp [ascii] at hlast
      exact hb hlast.symm

/-- The machine sum `50200 + ID` determines the identity, among the values of a
64-bit `int`. -/
theorem addInt_port_injective (a b : Int)
    (ha : -9223372036854775808 ≤ a ∧ a ≤ 9223372036854775807)
    (hb : -9223372036854775808 ≤ b ∧ b ≤ 9223372036854775807)
    (h : addInt 50200 a = addInt 50200 b) : a = b := by
  unfold addInt wrapInt at h
  omega

/-- C4: `FormatPeerListOptions` returns the addresses `127.0.0.1:<50200 + ID>`
of the peers whose identity differs from the node's own, in the order of the
input, joined by single commas, the sum being the sum of machine integers of the
source; it is the sum of integers for every list of peers whose identities do
not make it overflow. The result is empty when no such peer is left, it neither
starts nor ends with a comma, its comma-separated entries are exactly those
addresses, and, identities being values of a 64-bit `int`, the node's own
address is not among them. -/
theorem C4_peer_list_skips_self (n : BCNode) (peers : List BCNode) :
    n.FormatPeerListOptions peers
      = List.intercalate (ascii ",")
          ((peers.filter (fun p => decide (p.ID ≠ n.ID))).map
            (fun p => ascii "127.0.0.1:" ++ fmtD (addInt 50200 p.ID)))
    ∧ ((∀ p ∈ peers, -9223372036854775808 ≤ p.ID ∧ p.ID ≤ 9223372036854725607) →
        n.FormatPeerListOptions peers
          = List.intercalate (ascii ",")
              ((peers.filter (fun p => decide (p.ID ≠ n.ID))).map
                (fun p => ascii "127.0.0.1:" ++ fmtD (50200 + p.ID))))
    ∧ (peers.filter (fun p => decide (p.ID ≠ n.ID)) = [] → n.FormatPeerListOptions peers = [])
    ∧ ¬ (ascii "," <+: n.FormatPeerListOptions peers)
    ∧ ¬ (ascii "," <:+ n.FormatPeerListOptions peers)
    ∧ (peers.filter (fun p => decide (p.ID ≠ n.ID)) ≠ [] →
        (n.FormatPeerListOptions peers).splitOn 44
          = (peers.filter (fun p => decide (p.ID ≠ n.ID))).map
              (fun p => ascii "127.0.0.1:" ++ fmtD (addInt 50200 p.ID)))
    ∧ ((-9223372036854775808 ≤ n.ID ∧ n.ID ≤ 9223372036854775807) →
        (∀ p ∈ peers, -9223372036854775808 ≤ p.ID ∧ p.ID ≤ 9223372036854775807) →
        ascii "127.0.0.1:" ++ fmtD (addInt 50200 n.ID)
          ∉ (peers.filter (fun p => decide (p.ID ≠ n.ID))).map
              (fun p => ascii "127.0.0.1:" ++ fmtD (addInt 50200 p.ID))) := by
  have heq : n.FormatPeerListOptions peers
      = List.intercalate (ascii ",")
          ((peers.filter (fun p => decide (p.ID ≠ n.ID))).map
            (fun p => ascii "127.0.0.1:" ++ fmtD (addInt 50200 p.ID))) := by
    have h := formatPeer_foldl n peers []
    simpa [BCNode.FormatPeerListOptions, List.intercalate] using h
  have hentries : ∀ x ∈ (peers.filter (fun p => decide (p.ID ≠ n.ID))).map
      (fun p => ascii "127.0.0.1:" ++ fmtD (addInt 50200 p.ID)), x ≠ [] ∧ (44 : Byte) ∉ x := by
    intro x hx
    obtain ⟨q, _, rfl⟩ := List.mem_map.mp hx
    exact ⟨peerAddr_ne_nil _, peerAddr_no_comma _⟩
  refine ⟨heq, ?_, ?_, ?_, ?_, ?_, ?_⟩
  · intro hbound
    rw [heq]
    congr 1
    apply List.map_congr_left
    intro p hp
    have hb := hbound p (List.mem_filter.mp hp).1
    dsimp only [BCNodeID] at *
    rw [addInt_no_overflow 50200 p.ID (by omega) (by omega)]
  · intro hnil
    rw [heq, hnil]
    rfl
  · rw [heq]
    exact intercalate_no_leading_sep _ hentries
  · rw [heq]
    exact intercalate_no_trailing_sep _ hentries
  · intro hne
    rw [heq]
    have hcomma : ascii "," = [44] := rfl
    rw [hcomma]
    exact List.splitOn_intercalate _ 44 (fun l hl => (hentries l hl).2) (by simpa using hne)
  · intro hn hpeers hmem
    obtain ⟨q, hq, hqeq⟩ := List.mem_map.mp hmem
    have hqne : q.ID ≠ n.ID := by simpa using (List.mem_filter.mp hq).2
    have hqr := hpeers q (List.mem_filter.mp hq).1
    have hfmt : fmtD (addInt 50200 q.ID) = fmtD (addInt 50200 n.ID) :=
      List.append_cancel_left hqeq
    exact hqne (addInt_port_injective q.ID n.ID hqr hn (fmtD_injective _ _ hfmt))

/-- C4 for the node 1 among the peers 0, 1 and 2: the peer list is
`127.0.0.1:50200,127.0.0.1:50202`, with the two entries of the nodes 0 and 2. -/
theorem C4_peer_list_skips_self_witness :
    BCNode.FormatPeerListOptions { ID := 1, wDir := [] }
        [{ ID := 0, wDir := [] }, { ID := 1, wDir := [] }, { ID := 2, wDir := [] }]
      = List.intercalate (ascii ",")
          [ascii "127.0.0.1:" ++ fmtD (50200 + 0), ascii "127.0.0.1:" ++ fmtD (50200 + 2)]
    ∧ (BCNode.FormatPeerListOptions { ID := 1, wDir := [] }
        [{ ID := 0, wDir := [] }, { ID := 1, wDir := [] }, { ID := 2, wDir := [] }]).splitOn 44
      = [ascii "127.0.0.1:50200", ascii "127.0.0.1:50202"]
    ∧ ascii "127.0.0.1:50201"
        ∉ (BCNode.FormatPeerListOptions { ID := 1, wDir := [] }
          [{ ID := 0, wDir := [] }, { ID := 1, wDir := [] }, { ID := 2, wDir := [] }]).splitOn 44 :=
  ⟨((C4_peer_list_skips_self { ID := 1, wDir := [] }
      [{ ID := 0, wDir := [] }, { ID := 1, wDir := [] }, { ID := 2, wDir := [] }]).2.1
      (by decide)).trans (by decide),
   ((C4_peer_list_skips_self { ID := 1, wDir := [] }
      [{ ID := 0, wDir := [] }, { ID := 1, wDir := [] }, { ID := 2, wDir := [] }]).2.2.2.2.2.1
      (by decide)).trans (by decide),
   fun hmem =>
     (C4_peer_list_skips_self { ID := 1, wDir := [] }
      [{ ID := 0, wDir := [] }, { ID := 1, wDir := [] }, { ID := 2, wDir := [] }]).2.2.2.2.2.2
      (by decide) (by decide)
      (by
        rw [(C4_peer_list_skips_self { ID := 1, wDir := [] }
          [{ ID := 0, wDir := [] }, { ID := 1, wDir := [] },
           { ID := 2, wDir := [] }]).2.2.2.2.2.1 (by decide)] at hmem
        exact hmem)⟩

/-- At a peer identity where the machine sum overflows, here the largest
64-bit `int`, the port written is the wrapped sum. -/
theorem FormatPeerListOptions_wraps :
    BCNode.FormatPeerListOptions { ID := 0, wDir := [] }
        [{ ID := 9223372036854775807, wDir := [] }]
      = ascii "127.0.0.1:-9223372036854725609" := by
  decide

/-! ## The harness: the working directory -/

theorem pathElements_ne_nil (path : GoString) : pathElements path ≠ [] :=
  List.splitOnP_ne_nil _ _

/-- A name without separator is a single path element. -/
theorem pathElements_name (name : GoString) (hname : (47 : Byte) ∉ name) :
    pathElements name = [name] := by
  unfold pathElements List.splitOn
  apply List.splitOnP_eq_single
  intro x hx hx47
  have : x = 47 := by simpa using hx47
  exact hname (this ▸ hx)

/-- The elements of `root/name`, for a name without separator, are the elements
of `root` followed by `name`. -/
theorem pathElements_append_name (root name : GoString) (hname : (47 : Byte) ∉ name) :
    pathElements (root ++ 47 :: name) = pathElements root ++ [name] := by
  induction root with
  | nil =>
    have h := pathElements_name name hname
    unfold pathElements List.splitOn at h ⊢
    rw [List.nil_append, List.splitOnP_cons, h]
    simp
  | cons c cs ih =>
    have hne := pathElements_ne_nil cs
    unfold pathElements List.splitOn at ih hne ⊢
    rw [List.cons_append, List.splitOnP_cons, List.splitOnP_cons, ih]
    split
    · simp
    · cases hcs : List.splitOnP (fun x => x == 47) cs with
      | nil => exact absurd hcs hne
      | cons e es => simp [List.modifyHead]

/-- An ordinary name is written by a round of `filepath.Clean`. -/
theorem cleanStep_name (rooted : Bool) (written : List GoString) (name : GoString)
    (h0 : name ≠ []) (h1 : name ≠ ascii ".") (h2 : name ≠ ascii "..") :
    cleanStep rooted written name = name :: written := by
  unfold cleanStep
  rw [if_neg (by simp [h0, h1]), if_neg h2]

/-- Joining a directory with an ordinary name appends the name to a path that
depends on the directory only. -/
theorem filepathJoin_name (root : GoString) :
    ∃ dir : GoString, ∀ name : GoString, name ≠ [] → (47 : Byte) ∉ name →
      name ≠ ascii "." → name ≠ ascii ".." → filepathJoin [root, name] = dir ++ name := by
  by_cases hroot : root = []
  · refine ⟨[], fun name h0 h47 h1 h2 => ?_⟩
    subst hroot
    have hhead : (name.head? == some (47 : Byte)) = false := by
      cases name with
      | nil => rfl
      | cons b bs =>
        have hb : b ≠ 47 := fun hb => h47 (by rw [hb]; exact List.mem_cons_self _ _)
        simpa using hb
    have hjoin : filepathJoin [[], name] = filepathClean name := by
      simp [filepathJoin, h0, List.intercalate]
    rw [hjoin]
    unfold filepathClean
    rw [if_neg h0]
    simp only [hhead, pathElements_name name h47, List.foldl_cons, List.foldl_nil,
      cleanStep_name _ _ name h0 h1 h2]
    simp [List.intercalate, h0]
  · refine ⟨(if (root.head? == some (47 : Byte)) = true then [47] else [])
        ++ (if ((pathElements root).foldl (cleanStep (root.head? == some (47 : Byte))) []).reverse
              = [] then []
            else List.intercalate [47]
              ((pathElements root).foldl (cleanStep (root.head? == some (47 : Byte))) []).reverse
              ++ [47]),
      fun name h0 h47 h1 h2 => ?_⟩
    have hpath : List.intercalate [47] [root, name] = root ++ 47 :: name := by
      simp [List.intercalate]
    have hne : root ++ 47 :: name ≠ [] := by simp
    have hhead : (root ++ 47 :: name).head? = root.head? := by
      cases root with
      | nil => exact absurd rfl hroot
      | cons c cs => rfl
    have hcomma : ∀ xs : List GoString, List.intercalate [47] (xs ++ [name])
        = if xs = [] then name else List.intercalate [47] xs ++ [47] ++ name :=
      fun xs => intercalate_concat [47] xs name
    simp only [filepathJoin, ne_eq, hroot, not_false_eq_true, if_true, hpath, filepathClean, hne,
      if_false, hhead, pathElements_append_name root name h47, List.foldl_append, List.foldl_cons,
      List.foldl_nil, cleanStep_name _ _ name h0 h1 h2, List.reverse_cons, hcomma]
    split <;> split <;> simp [h0]

/-- For an identity between 0 and 99, `%02d` writes its two decimal digits. -/
theorem fmtD02_two_digits (i : Int) (h0 : 0 ≤ i) (h99 : i ≤ 99) :
    fmtD02 i = [UInt8.ofNat (48 + i.toNat / 10), UInt8.ofNat (48 + i.toNat % 10)] := by
  have hall : ∀ k : Fin 100, fmtD02 (Int.ofNat k.val)
      = [UInt8.ofNat (48 + k.val / 10), UInt8.ofNat (48 + k.val % 10)] := by decide
  have hk : i.toNat < 100 := by omega
  have hi : i = Int.ofNat i.toNat := by
    simp only [Int.ofNat_eq_coe]
    omega
  have h := hall ⟨i.toNat, hk⟩
  simp only at h
  rw [← hi] at h
  exact h

/-- The name `BCNode` followed by two digits is an ordinary path element. -/
theorem nodeDirName_ordinary (a b : Nat) (ha : a < 10) (hb : b < 10) :
    ascii "BCNode" ++ [UInt8.ofNat (48 + a), UInt8.ofNat (48 + b)] ≠ []
    ∧ (47 : Byte) ∉ ascii "BCNode" ++ [UInt8.ofNat (48 + a), UInt8.ofNat (48 + b)]
    ∧ ascii "BCNode" ++ [UInt8.ofNat (48 + a), UInt8.ofNat (48 + b)] ≠ ascii "."
    ∧ ascii "BCNode" ++ [UInt8.ofNat (48 + a), UInt8.ofNat (48 + b)] ≠ ascii ".." := by
  have hall : ∀ x y : Fin 10,
      ascii "BCNode" ++ [UInt8.ofNat (48 + x.val), UInt8.ofNat (48 + y.val)] ≠ []
      ∧ (47 : Byte) ∉ ascii "BCNode" ++ [UInt8.ofNat (48 + x.val), UInt8.ofNat (48 + y.val)]
      ∧ ascii "BCNode" ++ [UInt8.ofNat (48 + x.val), UInt8.ofNat (48 + y.val)] ≠ ascii "."
      ∧ ascii "BCNode" ++ [UInt8.ofNat (48 + x.val), UInt8.ofNat (48 + y.val)] ≠ ascii ".." := by
    decide
  exact hall ⟨a, ha⟩ ⟨b, hb⟩

/-- Two digit bytes are equal only for equal digits. -/
theorem digit_byte_injective (a b : Nat) (ha : a < 10) (hb : b < 10)
    (h : UInt8.ofNat (48 + a) = UInt8.ofNat (48 + b)) : a = b := by
  have hall : ∀ x y : Fin 10, UInt8.ofNat (48 + x.val) = UInt8.ofNat (48 + y.val) → x = y := by
    decide
  have := hall ⟨a, ha⟩ ⟨b, hb⟩ h
  exact Fin.mk.inj_iff.mp this

/-- The working directory of a node that `NewBCNode` returns is the join of the
root and `BCNode` followed by the identity under `%02d`. -/
theorem NewBCNode_some_wDir (env : Env) (ID : BCNodeID) (rootDir : GoString) (n : BCNode)
    (h : (NewBCNode env ID rootDir).1.1 = some n) :
    n.wDir = filepathJoin [rootDir, ascii "BCNode" ++ fmtD02 ID] := by
  unfold NewBCNode at h
  by_cases hID : ID > MaxBCNodeID
  · simp [hID] at h
  · simp only [hID, if_false] at h
    split at h
    · simp at h
    · split at h
      · simp at h
      · simp only [Option.some.injEq] at h
        rw [← h]

/-- C9: for an identity `i` between 0 and 99, the working directory of the node
that `NewBCNode` returns is the root joined with the name `BCNode` followed by
the two decimal digits of `i`, tens first; the joins for two different
identities under one root differ, and so do the working directories of the
nodes returned for them. -/
theorem C9_working_dir_two_digit_suffix (env : Env) (rootDir : GoString) (i j : Int)
    (hi0 : 0 ≤ i) (hi : i ≤ 99) (hj0 : 0 ≤ j) (hj : j ≤ 99) :
    (∀ n, (NewBCNode env i rootDir).1.1 = some n →
      n.WorkingDir = filepathJoin [rootDir,
        ascii "BCNode" ++ [UInt8.ofNat (48 + i.toNat / 10), UInt8.ofNat (48 + i.toNat % 10)]])
    ∧ (i ≠ j →
      filepathJoin [rootDir,
          ascii "BCNode" ++ [UInt8.ofNat (48 + i.toNat / 10), UInt8.ofNat (48 + i.toNat % 10)]]
        ≠ filepathJoin [rootDir,
          ascii "BCNode" ++ [UInt8.ofNat (48 + j.toNat / 10), UInt8.ofNat (48 + j.toNat % 10)]])
    ∧ (i ≠ j → ∀ n m, (NewBCNode env i rootDir).1.1 = some n →
      (NewBCNode env j rootDir).1.1 = some m → n.WorkingDir ≠ m.WorkingDir) := by
  have hdir : ∀ k : Int, 0 ≤ k → k ≤ 99 → ∀ n, (NewBCNode env k rootDir).1.1 = some n →
      n.WorkingDir = filepathJoin [rootDir,
        ascii "BCNode" ++ [UInt8.ofNat (48 + k.toNat / 10), UInt8.ofNat (48 + k.toNat % 10)]] := by
    intro k hk0 hk n hn
    rw [← fmtD02_two_digits k hk0 hk]
    exact NewBCNode_some_wDir env k rootDir n hn
  have hne : i ≠ j →
      filepathJoin [rootDir,
          ascii "BCNode" ++ [UInt8.ofNat (48 + i.toNat / 10), UInt8.ofNat (48 + i.toNat % 10)]]
        ≠ filepathJoin [rootDir,
          ascii "BCNode" ++ [UInt8.ofNat (48 + j.toNat / 10), UInt8.ofNat (48 + j.toNat % 10)]] := by
    intro hij heq
    obtain ⟨dir, hjoin⟩ := filepathJoin_name rootDir
    have hi10 : i.toNat / 10 < 10 := by omega
    have hj10 : j.toNat / 10 < 10 := by omega
    have him : i.toNat % 10 < 10 := by omega
    have hjm : j.toNat % 10 < 10 := by omega
    obtain ⟨a0, a47, a1, a2⟩ := nodeDirName_ordinary _ _ hi10 him
    obtain ⟨b0, b47, b1, b2⟩ := nodeDirName_ordinary _ _ hj10 hjm
    rw [hjoin _ a0 a47 a1 a2, hjoin _ b0 b47 b1 b2] at heq
    have hnames := List.append_cancel_left (List.append_cancel_left heq)
    simp only [List.cons.injEq, and_true] at hnames
    have h1 := digit_byte_injective _ _ hi10 hj10 hnames.1
    have h2 := digit_byte_injective _ _ him hjm hnames.2
    omega
  refine ⟨hdir i hi0 hi, hne, ?_⟩
  intro hij n m hn hm heq
  rw [hdir i hi0 hi n hn, hdir j hj0 hj m hm] at heq
  exact hne hij heq

/-- C9 at the root `/tmp` and the identities 7 and 42: the node built for 7
works in `/tmp/BCNode07`. -/
theorem C9_working_dir_two_digit_suffix_witness :
    ((0 : Int) ≤ 7 ∧ (7 : Int) ≤ 99 ∧ (0 : Int) ≤ 42 ∧ (42 : Int) ≤ 99)
    ∧ (NewBCNode allSucceed 7 (ascii "/tmp")).1.1
        = some { ID := 7, wDir := ascii "/tmp/BCNode07" }
    ∧ ({ ID := 7, wDir := ascii "/tmp/BCNode07" } : BCNode).WorkingDir
        = filepathJoin [ascii "/tmp",
            ascii "BCNode" ++ [UInt8.ofNat (48 + (7 : Int).toNat / 10),
              UInt8.ofNat (48 + (7 : Int).toNat % 10)]] :=
  ⟨by decide, by decide,
   (C9_working_dir_two_digit_suffix allSucceed (ascii "/tmp") 7 42 (by decide) (by decide)
      (by decide) (by decide)).1 { ID := 7, wDir := ascii "/tmp/BCNode07" } (by decide)⟩

end AbciProxy
